import Mathlib

/-!
Verification development for the reporting engine of a personal-finance
backend (`Transaction.js`, `ReportGenerator.js`).

Modelling conventions:
* monetary amounts are rationals (the source works on decimal values);
* dates are natural numbers counting calendar days (the source normalizes
  every transaction date to its calendar day before bucketing, and walks
  the range one calendar day at a time);
* the JavaScript object used for grouping and the `Map` used for daily
  buckets are both association lists in insertion order: updating an
  existing key keeps its position, a new key is appended at the end —
  exactly the key-ordering semantics of JS objects and `Map`;
* a thrown constructor error is `Option.none`.
-/

/-- A financial transaction record, from `class Transaction`. -/
structure Transaction where
  id : String
  amount : Rat
  date : Nat
  type : String
  category : String
  description : String
  userId : String
deriving DecidableEq

/-- `new Transaction(...)`: throws when `amount <= 0`, otherwise stores the
fields verbatim.  The thrown error is modelled as `none`. -/
def mkTransaction (id : String) (amount : Rat) (date : Nat) (type : String)
    (category : String) (description : String) (userId : String) :
    Option Transaction :=
  if amount ≤ 0 then none
  else some ⟨id, amount, date, type, category, description, userId⟩

/-- The user's financial profile, from `class UserProfile`. -/
structure UserProfile where
  userId : String
  jobTitle : String
  monthlySalary : Rat
  savingsGoalPercentage : Rat
deriving DecidableEq

/-- `UserProfile.getMonthlySavingsGoalAmount`. -/
def UserProfile.getMonthlySavingsGoalAmount (p : UserProfile) : Rat :=
  p.monthlySalary * (p.savingsGoalPercentage / 100)

/-- A constructed `ReportGenerator`: the stored (date-sorted) transaction
list and the profile. -/
structure ReportGenerator where
  transactions : List Transaction
  userProfile : UserProfile

/-- `ReportGenerator._getTransactionsInDateRange`. -/
def ReportGenerator.getTransactionsInDateRange (rg : ReportGenerator)
    (startDate endDate : Nat) : List Transaction :=
  rg.transactions.filter (fun tx => decide (startDate ≤ tx.date ∧ tx.date ≤ endDate))

/-- One step of an insertion-ordered association-list update: an existing
key keeps its position and accumulates, a missing key is appended at the
end — the semantics of `obj[k] += a` on a JS object and of
`map.set(k, map.get(k) + a)` on a JS `Map`. -/
def updateAssoc {α : Type} [DecidableEq α] :
    List (α × Rat) → α → Rat → List (α × Rat)
  | [], k, a => [(k, a)]
  | (k0, v0) :: rest, k, a =>
    if k0 = k then (k, v0 + a) :: rest else (k0, v0) :: updateAssoc rest k a

/-- Loop body of `generateSpendingAnalysis`: only `type === 'expense'`
transactions are accumulated, keyed by category. -/
def spendingStep (m : List (String × Rat)) (tx : Transaction) :
    List (String × Rat) :=
  if tx.type = "expense" then updateAssoc m tx.category tx.amount else m

/-- `ReportGenerator.generateSpendingAnalysis`: group in-range expenses by
category, summing amounts; the result lists `(category, total)` pairs in
JS object key order. -/
def ReportGenerator.generateSpendingAnalysis (rg : ReportGenerator)
    (startDate endDate : Nat) : List (String × Rat) :=
  (rg.getTransactionsInDateRange startDate endDate).foldl spendingStep []

/-- Result shape of `generateIncomeVsExpenseReport`. -/
structure IncomeVsExpense where
  totalIncome : Rat
  totalExpenses : Rat
deriving DecidableEq

/-- Loop body of `generateIncomeVsExpenseReport`: `type === 'income'` adds
to the income total, every other transaction falls into the `else` branch
and adds to the expense total. -/
def iveStep (acc : IncomeVsExpense) (tx : Transaction) : IncomeVsExpense :=
  if tx.type = "income"
  then { acc with totalIncome := acc.totalIncome + tx.amount }
  else { acc with totalExpenses := acc.totalExpenses + tx.amount }

/-- `ReportGenerator.generateIncomeVsExpenseReport`. -/
def ReportGenerator.generateIncomeVsExpenseReport (rg : ReportGenerator)
    (startDate endDate : Nat) : IncomeVsExpense :=
  (rg.getTransactionsInDateRange startDate endDate).foldl iveStep ⟨0, 0⟩

/-- The signed daily contribution of one transaction in
`generateSavingsGrowth`: `type === 'income' ? amount : -amount`. -/
def signedAmount (tx : Transaction) : Rat :=
  if tx.type = "income" then tx.amount else -tx.amount

/-- Loop body building the `dailyNetChange` map of `generateSavingsGrowth`. -/
def dayStep (m : List (Nat × Rat)) (tx : Transaction) : List (Nat × Rat) :=
  updateAssoc m tx.date (signedAmount tx)

/-- The `dailyNetChange` map of `generateSavingsGrowth`: per-calendar-day
net change of the given transactions, in insertion order. -/
def dailyNetChange (txs : List Transaction) : List (Nat × Rat) :=
  txs.foldl dayStep []

/-- The day walk of `generateSavingsGrowth`: starting at `day` with running
balance `bal`, emit `n` entries, adding the day's bucket (when present) to
the balance before emitting. -/
def walkFrom (m : List (Nat × Rat)) : Nat → Rat → Nat → List (Nat × Rat)
  | _, _, 0 => []
  | day, bal, n + 1 =>
    (day, bal + ((List.lookup day m).getD 0)) ::
      walkFrom m (day + 1) (bal + ((List.lookup day m).getD 0)) n

/-- `ReportGenerator.generateSavingsGrowth`: empty when no transaction is
in range, otherwise one `(day, balance)` entry per calendar day of the
inclusive range. -/
def ReportGenerator.generateSavingsGrowth (rg : ReportGenerator)
    (startDate endDate : Nat) : List (Nat × Rat) :=
  let relevantTransactions := rg.getTransactionsInDateRange startDate endDate
  if relevantTransactions = [] then []
  else walkFrom (dailyNetChange relevantTransactions) startDate 0
    (endDate + 1 - startDate)

/-- Result shape of `generateBudgetVsActualReport`. -/
structure BudgetVsActual where
  expectedIncome : Rat
  actualIncome : Rat
  savingsGoal : Rat
  actualSavings : Rat
  variance : Rat
deriving DecidableEq

/-- `ReportGenerator.generateBudgetVsActualReport`. -/
def ReportGenerator.generateBudgetVsActualReport (rg : ReportGenerator)
    (startDate endDate : Nat) : BudgetVsActual :=
  let r := rg.generateIncomeVsExpenseReport startDate endDate
  let savingsGoalAmount := rg.userProfile.getMonthlySavingsGoalAmount
  let actualSavings := r.totalIncome - r.totalExpenses
  { expectedIncome := rg.userProfile.monthlySalary
    actualIncome := r.totalIncome
    savingsGoal := savingsGoalAmount
    actualSavings := actualSavings
    variance := actualSavings - savingsGoalAmount }

/-! ### Specification-side definitions (from the spec's wording) -/

/-- Spec side: the sum of the amounts of exactly the expense-kind
transactions of category `c` in the given list. -/
def expenseSum (txs : List Transaction) (c : String) : Rat :=
  ((txs.filter (fun tx => tx.type == "expense" && tx.category == c)).map
    Transaction.amount).sum

/-- Spec side: the net change (+amount for income, -amount otherwise) of
the transactions dated on calendar day `d`. -/
def dayNet (txs : List Transaction) (d : Nat) : Rat :=
  ((txs.filter (fun tx => tx.date == d)).map signedAmount).sum

/-- Spec side: the running sum, starting at 0, of the per-calendar-day net
changes over the `n` days beginning at `day`. -/
def runningNet (txs : List Transaction) : Nat → Nat → Rat
  | _, 0 => 0
  | day, n + 1 => dayNet txs day + runningNet txs (day + 1) n

/-- Sum of the bucket values looked up over the `n` days beginning at
`day` (missing days contribute 0). -/
def sumBuckets (m : List (Nat × Rat)) : Nat → Nat → Rat
  | _, 0 => 0
  | day, n + 1 => ((List.lookup day m).getD 0) + sumBuckets m (day + 1) n

/-! ### Concrete data for witnesses (the example data of `Transaction.js`,
dates as day-of-October-2023) -/

/-- The example profile of the source file. -/
def profileEx : UserProfile :=
  ⟨"user123", "Software Developer", 2500, 20⟩

/-- The example transactions of the source file (dates as day numbers). -/
def dbTransactions : List Transaction :=
  [⟨"1", 2500, 1, "income", "Salary", "Monthly Paycheck", "user123"⟩,
   ⟨"2", (151 : Rat) / 2, 5, "expense", "Groceries", "Weekly shopping", "user123"⟩,
   ⟨"3", 30, 7, "expense", "Transport", "Bus pass", "user123"⟩,
   ⟨"4", 120, 12, "expense", "Bills", "Internet bill", "user123"⟩,
   ⟨"5", 50, 15, "expense", "Entertainment", "Cinema tickets", "user123"⟩,
   ⟨"6", 85, 20, "expense", "Groceries", "More shopping", "user123"⟩]

/-- The example engine of the source file. -/
def rgEx : ReportGenerator := ⟨dbTransactions, profileEx⟩

/-- An engine with no transactions at all. -/
def rgEmpty : ReportGenerator := ⟨[], profileEx⟩

/-! ### Helper lemmas about insertion-ordered association lists -/

theorem lookup_updateAssoc_self {α : Type} [DecidableEq α]
    (m : List (α × Rat)) (k : α) (a : Rat) :
    List.lookup k (updateAssoc m k a) = some (((List.lookup k m).getD 0) + a) := by
  induction m with
  | nil => simp [updateAssoc, List.lookup]
  | cons p rest ih =>
    obtain ⟨k0, v0⟩ := p
    by_cases h : k0 = k
    · subst h
      simp [updateAssoc, List.lookup]
    · have h2 : (k == k0) = false := by
        simp [Ne.symm h]
      simp [updateAssoc, h, List.lookup, h2, ih]

theorem lookup_updateAssoc_ne {α : Type} [DecidableEq α]
    (m : List (α × Rat)) (k k2 : α) (a : Rat) (h : k2 ≠ k) :
    List.lookup k2 (updateAssoc m k a) = List.lookup k2 m := by
  induction m with
  | nil =>
    have h2 : (k2 == k) = false := by simp [h]
    simp [updateAssoc, List.lookup, h2]
  | cons p rest ih =>
    obtain ⟨k0, v0⟩ := p
    by_cases hk : k0 = k
    · subst hk
      have h2 : (k2 == k0) = false := by simp [h]
      simp [updateAssoc, List.lookup, h2]
    · simp [updateAssoc, hk, List.lookup, ih]

theorem mem_keys_updateAssoc {α : Type} [DecidableEq α]
    (m : List (α × Rat)) (k x : α) (a : Rat) :
    x ∈ (updateAssoc m k a).map Prod.fst ↔ x ∈ m.map Prod.fst ∨ x = k := by
  induction m with
  | nil => simp [updateAssoc]
  | cons p rest ih =>
    obtain ⟨k0, v0⟩ := p
    by_cases h : k0 = k
    · subst h
      simp [updateAssoc]
      tauto
    · simp [updateAssoc, h, ih]
      tauto

theorem nodup_keys_updateAssoc {α : Type} [DecidableEq α]
    (m : List (α × Rat)) (k : α) (a : Rat)
    (h : (m.map Prod.fst).Nodup) :
    ((updateAssoc m k a).map Prod.fst).Nodup := by
  induction m with
  | nil => simp [updateAssoc]
  | cons p rest ih =>
    obtain ⟨k0, v0⟩ := p
    rw [List.map_cons, List.nodup_cons] at h
    by_cases hk : k0 = k
    · subst hk
      have he : updateAssoc ((k0, v0) :: rest) k0 a = (k0, v0 + a) :: rest := by
        simp [updateAssoc]
      rw [he, List.map_cons, List.nodup_cons]
      exact h
    · simp only [updateAssoc, if_neg hk, List.map_cons, List.nodup_cons]
      refine ⟨fun hmem => ?_, ih h.2⟩
      rcases (mem_keys_updateAssoc rest k k0 a).mp hmem with hmem2 | hmem2
      · exact h.1 hmem2
      · exact hk hmem2

theorem sumSnd_updateAssoc {α : Type} [DecidableEq α]
    (m : List (α × Rat)) (k : α) (a : Rat) :
    ((updateAssoc m k a).map Prod.snd).sum = (m.map Prod.snd).sum + a := by
  induction m with
  | nil => simp [updateAssoc]
  | cons p rest ih =>
    obtain ⟨k0, v0⟩ := p
    by_cases h : k0 = k
    · subst h
      simp [updateAssoc]
      ring
    · simp [updateAssoc, h, ih]
      ring

theorem pos_values_updateAssoc {α : Type} [DecidableEq α]
    (m : List (α × Rat)) (k : α) (a : Rat)
    (hm : ∀ p ∈ m, 0 < p.2) (ha : 0 < a) :
    ∀ p ∈ updateAssoc m k a, 0 < p.2 := by
  induction m with
  | nil =>
    intro p hp
    simp [updateAssoc] at hp
    simp [hp, ha]
  | cons q rest ih =>
    obtain ⟨k0, v0⟩ := q
    intro p hp
    have hv0 : 0 < v0 := hm (k0, v0) (by simp)
    by_cases h : k0 = k
    · subst h
      simp [updateAssoc] at hp
      rcases hp with hp | hp
      · simp [hp]
        positivity
      · exact hm p (by simp [hp])
    · simp [updateAssoc, h] at hp
      rcases hp with hp | hp
      · simp [hp, hv0]
      · exact ih (fun q hq => hm q (by simp [hq])) p hp

theorem lookup_eq_none_of_not_mem_keys {α : Type} [DecidableEq α]
    (m : List (α × Rat)) (k : α) (h : k ∉ m.map Prod.fst) :
    List.lookup k m = none := by
  induction m with
  | nil => simp
  | cons p rest ih =>
    obtain ⟨k0, v0⟩ := p
    rw [List.map_cons] at h
    have h1 : k ≠ k0 := fun hh => h (by simp [hh])
    have h2 : k ∉ rest.map Prod.fst := fun hh => h (by simp [hh])
    have hb : (k == k0) = false := by simp [h1]
    simp only [List.lookup, hb]
    exact ih h2

/-! ### Claims C3, C6, C7, C8, C9 -/

/-- Claim C3: the budget-vs-actual query returns `expectedIncome` equal to
the profile's `monthlySalary` verbatim, `actualIncome` equal to the
income-vs-expense query's `totalIncome` for the same range, `savingsGoal`
equal to `monthlySalary * savingsGoalPercent / 100` recomputed from the
profile, `actualSavings` equal to `actualIncome` minus the same-range
`totalExpenses`, and `variance` equal to `actualSavings - savingsGoal`. -/
theorem claimC3 (rg : ReportGenerator) (s e : Nat) :
    (rg.generateBudgetVsActualReport s e).expectedIncome =
      rg.userProfile.monthlySalary ∧
    (rg.generateBudgetVsActualReport s e).actualIncome =
      (rg.generateIncomeVsExpenseReport s e).totalIncome ∧
    (rg.generateBudgetVsActualReport s e).savingsGoal =
      rg.userProfile.monthlySalary * rg.userProfile.savingsGoalPercentage / 100 ∧
    (rg.generateBudgetVsActualReport s e).actualSavings =
      (rg.generateIncomeVsExpenseReport s e).totalIncome -
        (rg.generateIncomeVsExpenseReport s e).totalExpenses ∧
    (rg.generateBudgetVsActualReport s e).variance =
      (rg.generateBudgetVsActualReport s e).actualSavings -
        (rg.generateBudgetVsActualReport s e).savingsGoal := by
  refine ⟨rfl, rfl, ?_, rfl, rfl⟩
  simp [ReportGenerator.generateBudgetVsActualReport,
    UserProfile.getMonthlySavingsGoalAmount, mul_div_assoc]

/-- Claim C6: for `startDate ≤ endDate` the range filter returns exactly
the subsequence of stored transactions whose date lies in the inclusive
range `[startDate, endDate]`, preserving the stored order; a transaction
dated exactly on either boundary is included. -/
theorem claimC6 (rg : ReportGenerator) (s e : Nat) (h : s ≤ e) :
    rg.getTransactionsInDateRange s e =
      rg.transactions.filter (fun tx => decide (s ≤ tx.date) && decide (tx.date ≤ e)) ∧
    (rg.getTransactionsInDateRange s e).Sublist rg.transactions ∧
    ∀ tx : Transaction,
      tx ∈ rg.getTransactionsInDateRange s e ↔
        tx ∈ rg.transactions ∧ s ≤ tx.date ∧ tx.date ≤ e := by
  refine ⟨?_, List.filter_sublist _, ?_⟩
  · unfold ReportGenerator.getTransactionsInDateRange
    apply List.filter_congr
    intro tx _
    simp
  · intro tx
    simp [ReportGenerator.getTransactionsInDateRange, List.mem_filter,
      and_assoc]

/-- Witness for C6 at the example data: the instantiated filter equation
and the boundary membership of the transaction dated exactly on the
start date. -/
theorem claimC6_witness :
    (rgEx.getTransactionsInDateRange 1 31 =
      rgEx.transactions.filter
        (fun tx => decide (1 ≤ tx.date) && decide (tx.date ≤ 31))) ∧
    ((⟨"1", 2500, 1, "income", "Salary", "Monthly Paycheck", "user123"⟩ :
        Transaction) ∈ rgEx.getTransactionsInDateRange 1 31 ↔
      (⟨"1", 2500, 1, "income", "Salary", "Monthly Paycheck", "user123"⟩ :
        Transaction) ∈ rgEx.transactions ∧ 1 ≤ 1 ∧ 1 ≤ 31) :=
  ⟨(claimC6 rgEx 1 31 (by decide)).1,
   (claimC6 rgEx 1 31 (by decide)).2.2
     ⟨"1", 2500, 1, "income", "Salary", "Monthly Paycheck", "user123"⟩⟩

/-- Claim C7: transaction construction fails exactly when the supplied
amount is `≤ 0`; on success the record holds the supplied fields verbatim
and its amount is strictly positive. -/
theorem claimC7 (id : String) (amount : Rat) (date : Nat)
    (type category description userId : String) :
    (mkTransaction id amount date type category description userId = none ↔
      amount ≤ 0) ∧
    ∀ t : Transaction,
      mkTransaction id amount date type category description userId = some t →
        0 < t.amount ∧
          t = ⟨id, amount, date, type, category, description, userId⟩ := by
  unfold mkTransaction
  by_cases h0 : amount ≤ 0
  · simp [h0]
  · push_neg at h0
    simp [not_le.mpr h0]
    exact h0

/-- Witness for C7: a non-positive amount is rejected; the example salary
transaction is accepted with its positive amount stored verbatim. -/
theorem claimC7_witness :
    mkTransaction "bad" (-5) 1 "income" "Salary" "" "u" = none ∧
    (0 < ((⟨"1", 2500, 1, "income", "Salary", "", "u"⟩ : Transaction)).amount ∧
      (⟨"1", 2500, 1, "income", "Salary", "", "u"⟩ : Transaction) =
        ⟨"1", 2500, 1, "income", "Salary", "", "u"⟩) :=
  ⟨(claimC7 "bad" (-5) 1 "income" "Salary" "" "u").1.mpr (by decide),
   (claimC7 "1" 2500 1 "income" "Salary" "" "u").2 _ (by decide)⟩

/-- Claim C8 (counterexample): with `startDate = 5 > 3 = endDate` the
engine does not fail: every query runs to completion and silently returns
the empty/zero result, indistinguishable from an empty valid range. -/
theorem claimC8_counterexample :
    rgEx.getTransactionsInDateRange 5 3 = [] ∧
    rgEx.generateIncomeVsExpenseReport 5 3 = ⟨0, 0⟩ ∧
    rgEx.generateSpendingAnalysis 5 3 = [] ∧
    rgEx.generateSavingsGrowth 5 3 = [] := by
  refine ⟨by decide, by decide, by decide, by decide⟩

/-- Claim C8 (amended): when `startDate > endDate` every query silently
returns the empty (respectively all-zero) result: the range filter
returns `[]`, spending analysis returns `[]`, income-vs-expense returns
`{0, 0}`, and savings growth returns `[]`; no failure occurs. -/
theorem claimC8_amended (rg : ReportGenerator) (s e : Nat) (h : e < s) :
    rg.getTransactionsInDateRange s e = [] ∧
    rg.generateSpendingAnalysis s e = [] ∧
    rg.generateIncomeVsExpenseReport s e = ⟨0, 0⟩ ∧
    rg.generateSavingsGrowth s e = [] := by
  have hf : rg.getTransactionsInDateRange s e = [] := by
    unfold ReportGenerator.getTransactionsInDateRange
    apply List.filter_eq_nil_iff.mpr
    intro tx _
    simp
    omega
  refine ⟨hf, ?_, ?_, ?_⟩
  · simp [ReportGenerator.generateSpendingAnalysis, hf]
  · simp [ReportGenerator.generateIncomeVsExpenseReport, hf]
  · simp [ReportGenerator.generateSavingsGrowth, hf]

/-- Witness for the amended C8 at a concrete inverted range. -/
theorem claimC8_witness :
    rgEx.getTransactionsInDateRange 7 6 = [] ∧
    rgEx.generateSpendingAnalysis 7 6 = [] ∧
    rgEx.generateIncomeVsExpenseReport 7 6 = ⟨0, 0⟩ ∧
    rgEx.generateSavingsGrowth 7 6 = [] :=
  claimC8_amended rgEx 7 6 (by decide)

/-- Claim C9 (counterexample): a transaction whose kind is neither
`income` nor `expense` is accepted by the constructor, and the
income-vs-expense query silently classifies it as an expense. -/
theorem claimC9_counterexample :
    mkTransaction "x" 10 3 "investment" "Stocks" "" "u" =
      some ⟨"x", 10, 3, "investment", "Stocks", "", "u"⟩ ∧
    (ReportGenerator.mk [⟨"x", 10, 3, "investment", "Stocks", "", "u"⟩]
        profileEx).generateIncomeVsExpenseReport 1 5 = ⟨0, 10⟩ := by
  refine ⟨by decide, ?_⟩
  simp [ReportGenerator.generateIncomeVsExpenseReport,
    ReportGenerator.getTransactionsInDateRange, iveStep]

/-- Claim C9 (amended): construction validates only the amount — any kind
string is accepted when the amount is positive — and the aggregation
queries silently classify every non-`income` kind as an expense: a lone
in-range transaction with any kind other than `income` yields
`totalExpenses` equal to its amount. -/
theorem claimC9_amended (id : String) (amount : Rat) (date : Nat)
    (type category description userId : String)
    (hpos : 0 < amount) (hty : type ≠ "income") :
    mkTransaction id amount date type category description userId =
      some ⟨id, amount, date, type, category, description, userId⟩ ∧
    ∀ (p : UserProfile) (s e : Nat), s ≤ date → date ≤ e →
      (ReportGenerator.mk [⟨id, amount, date, type, category, description,
          userId⟩] p).generateIncomeVsExpenseReport s e = ⟨0, amount⟩ := by
  constructor
  · unfold mkTransaction
    rw [if_neg (not_le.mpr hpos)]
  · intro p s e hs he
    unfold ReportGenerator.generateIncomeVsExpenseReport
      ReportGenerator.getTransactionsInDateRange
    simp [hs, he, iveStep, hty]

/-- Witness for the amended C9: a `crypto`-kind transaction is accepted
and counted as an expense. -/
theorem claimC9_witness :
    mkTransaction "x" 10 3 "crypto" "Stocks" "" "u" =
      some ⟨"x", 10, 3, "crypto", "Stocks", "", "u"⟩ ∧
    (ReportGenerator.mk [⟨"x", 10, 3, "crypto", "Stocks", "", "u"⟩]
        profileEx).generateIncomeVsExpenseReport 1 5 = ⟨0, 10⟩ :=
  ⟨(claimC9_amended "x" 10 3 "crypto" "Stocks" "" "u" (by decide)
      (by decide)).1,
   (claimC9_amended "x" 10 3 "crypto" "Stocks" "" "u" (by decide)
      (by decide)).2 profileEx 1 5 (by decide) (by decide)⟩

/-! ### Fold lemmas for the spending and income-vs-expense aggregations -/

theorem expenseSum_cons (tx : Transaction) (rest : List Transaction)
    (c : String) :
    expenseSum (tx :: rest) c =
      (if tx.type = "expense" ∧ tx.category = c then tx.amount else 0) +
        expenseSum rest c := by
  unfold expenseSum
  by_cases h : tx.type = "expense" ∧ tx.category = c
  · have hb : (tx.type == "expense" && tx.category == c) = true := by
      simp [h.1, h.2]
    rw [List.filter_cons, if_pos hb, if_pos h, List.map_cons, List.sum_cons]
  · have hb : (tx.type == "expense" && tx.category == c) = false := by
      rcases not_and_or.mp h with h1 | h1 <;> simp [h1]
    rw [List.filter_cons, if_neg (by simp [hb]), if_neg h, zero_add]

theorem expenseSum_eq_zero (txs : List Transaction) (c : String)
    (h : ¬ ∃ tx ∈ txs, tx.type = "expense" ∧ tx.category = c) :
    expenseSum txs c = 0 := by
  unfold expenseSum
  have hnil : txs.filter (fun tx => tx.type == "expense" && tx.category == c) = [] := by
    apply List.filter_eq_nil_iff.mpr
    intro tx htx
    intro hb
    refine h ⟨tx, htx, ?_⟩
    simpa using hb
  simp [hnil]

theorem lookup_spendingFold (txs : List Transaction) :
    ∀ (m : List (String × Rat)) (c : String),
      List.lookup c (txs.foldl spendingStep m) =
        if ∃ tx ∈ txs, tx.type = "expense" ∧ tx.category = c
        then some (((List.lookup c m).getD 0) + expenseSum txs c)
        else List.lookup c m := by
  induction txs with
  | nil =>
    intro m c
    simp [expenseSum]
  | cons tx rest ih =>
    intro m c
    rw [List.foldl_cons]
    by_cases hexp : tx.type = "expense"
    · by_cases hcat : tx.category = c
      · have hstep : spendingStep m tx = updateAssoc m c tx.amount := by
          rw [spendingStep, if_pos hexp, hcat]
        have houter : ∃ t2 ∈ tx :: rest, t2.type = "expense" ∧ t2.category = c := by
          exact ⟨tx, List.mem_cons_self tx rest, hexp, hcat⟩
        have hyes : tx.type = "expense" ∧ tx.category = c := ⟨hexp, hcat⟩
        rw [hstep, ih, if_pos houter, expenseSum_cons, if_pos hyes]
        by_cases hrest : ∃ t2 ∈ rest, t2.type = "expense" ∧ t2.category = c
        · rw [if_pos hrest, lookup_updateAssoc_self, Option.getD_some]
          congr 1
          ring
        · rw [if_neg hrest, lookup_updateAssoc_self,
            expenseSum_eq_zero rest c hrest]
          congr 1
          ring
      · have hstep : spendingStep m tx = updateAssoc m tx.category tx.amount := by
          rw [spendingStep, if_pos hexp]
        have hcond : (∃ t2 ∈ tx :: rest, t2.type = "expense" ∧ t2.category = c) ↔
            ∃ t2 ∈ rest, t2.type = "expense" ∧ t2.category = c := by
          simp only [List.mem_cons]
          constructor
          · rintro ⟨t2, ht2 | ht2, hprop⟩
            · rw [ht2] at hprop
              exact absurd hprop.2 hcat
            · exact ⟨t2, ht2, hprop⟩
          · rintro ⟨t2, ht2, hprop⟩
            exact ⟨t2, Or.inr ht2, hprop⟩
        have hno : ¬(tx.type = "expense" ∧ tx.category = c) := fun hh => hcat hh.2
        rw [hstep, ih,
          lookup_updateAssoc_ne m tx.category c tx.amount (Ne.symm hcat),
          expenseSum_cons, if_neg hno, zero_add]
        simp only [hcond]
    · have hstep : spendingStep m tx = m := by
        rw [spendingStep, if_neg hexp]
      have hcond : (∃ t2 ∈ tx :: rest, t2.type = "expense" ∧ t2.category = c) ↔
          ∃ t2 ∈ rest, t2.type = "expense" ∧ t2.category = c := by
        simp only [List.mem_cons]
        constructor
        · rintro ⟨t2, ht2 | ht2, hprop⟩
          · rw [ht2] at hprop
            exact absurd hprop.1 hexp
          · exact ⟨t2, ht2, hprop⟩
        · rintro ⟨t2, ht2, hprop⟩
          exact ⟨t2, Or.inr ht2, hprop⟩
      have hno : ¬(tx.type = "expense" ∧ tx.category = c) := fun hh => hexp hh.1
      rw [hstep, ih, expenseSum_cons, if_neg hno, zero_add]
      simp only [hcond]

theorem nodup_keys_spendingFold (txs : List Transaction) :
    ∀ m : List (String × Rat), (m.map Prod.fst).Nodup →
      ((txs.foldl spendingStep m).map Prod.fst).Nodup := by
  induction txs with
  | nil => intro m hm; simpa
  | cons tx rest ih =>
    intro m hm
    rw [List.foldl_cons]
    apply ih
    rw [spendingStep]
    split
    · exact nodup_keys_updateAssoc m tx.category tx.amount hm
    · exact hm

theorem sumSnd_spendingFold (txs : List Transaction) :
    ∀ m : List (String × Rat),
      ((txs.foldl spendingStep m).map Prod.snd).sum =
        (m.map Prod.snd).sum +
          ((txs.filter (fun tx => tx.type == "expense")).map
            Transaction.amount).sum := by
  induction txs with
  | nil => intro m; simp
  | cons tx rest ih =>
    intro m
    rw [List.foldl_cons, List.filter_cons]
    by_cases h : tx.type = "expense"
    · have hb : (tx.type == "expense") = true := by simp [h]
      rw [if_pos hb, spendingStep, if_pos h, ih, sumSnd_updateAssoc,
        List.map_cons, List.sum_cons]
      ring
    · have hb : (tx.type == "expense") = false := by simp [h]
      rw [if_neg (by simp [hb]), spendingStep, if_neg h, ih]

theorem pos_values_spendingFold (txs : List Transaction)
    (htx : ∀ tx ∈ txs, 0 < tx.amount) :
    ∀ m : List (String × Rat), (∀ p ∈ m, 0 < p.2) →
      ∀ p ∈ txs.foldl spendingStep m, 0 < p.2 := by
  induction txs with
  | nil =>
    intro m hm
    simpa using hm
  | cons tx rest ih =>
    intro m hm
    rw [List.foldl_cons]
    apply ih (fun t ht => htx t (List.mem_cons_of_mem tx ht))
    rw [spendingStep]
    split
    · exact pos_values_updateAssoc m tx.category tx.amount hm
        (htx tx (List.mem_cons_self tx rest))
    · exact hm

theorem iveFold_totalIncome (txs : List Transaction) :
    ∀ acc : IncomeVsExpense,
      (txs.foldl iveStep acc).totalIncome =
        acc.totalIncome +
          ((txs.filter (fun tx => tx.type == "income")).map
            Transaction.amount).sum := by
  induction txs with
  | nil => intro acc; simp
  | cons tx rest ih =>
    intro acc
    rw [List.foldl_cons, List.filter_cons]
    by_cases h : tx.type = "income"
    · have hb : (tx.type == "income") = true := by simp [h]
      rw [if_pos hb, iveStep, if_pos h, ih, List.map_cons, List.sum_cons]
      simp
      ring
    · have hb : (tx.type == "income") = false := by simp [h]
      rw [if_neg (by simp [hb]), iveStep, if_neg h, ih]

theorem iveFold_totalExpenses (txs : List Transaction) :
    ∀ acc : IncomeVsExpense,
      (txs.foldl iveStep acc).totalExpenses =
        acc.totalExpenses +
          ((txs.filter (fun tx => !(tx.type == "income"))).map
            Transaction.amount).sum := by
  induction txs with
  | nil => intro acc; simp
  | cons tx rest ih =>
    intro acc
    rw [List.foldl_cons, List.filter_cons]
    by_cases h : tx.type = "income"
    · have hb : (tx.type == "income") = true := by simp [h]
      rw [if_neg (by simp [hb]), iveStep, if_pos h, ih]
    · have hb : (tx.type == "income") = false := by simp [h]
      rw [if_pos (by simp [hb]), iveStep, if_neg h, ih, List.map_cons,
        List.sum_cons]
      simp
      ring

theorem sum_signedAmount (txs : List Transaction) :
    (txs.map signedAmount).sum =
      ((txs.filter (fun tx => tx.type == "income")).map
        Transaction.amount).sum -
        ((txs.filter (fun tx => !(tx.type == "income"))).map
          Transaction.amount).sum := by
  induction txs with
  | nil => simp
  | cons tx rest ih =>
    rw [List.map_cons, List.sum_cons, ih, List.filter_cons, List.filter_cons]
    by_cases h : tx.type = "income"
    · have hb : (tx.type == "income") = true := by simp [h]
      rw [if_pos hb, if_neg (by simp [hb]), signedAmount, if_pos h,
        List.map_cons, List.sum_cons]
      ring
    · have hb : (tx.type == "income") = false := by simp [h]
      rw [if_neg (by simp [hb]), if_pos (by simp [hb]), signedAmount,
        if_neg h, List.map_cons, List.sum_cons]
      ring

/-! ### Claims C2, C4, C10 -/

/-- Claim C2: the spending-analysis query maps every category that has at
least one expense-kind transaction in range to the sum of the amounts of
exactly those transactions, and no other category appears (no zero
entries); the emitted categories are moreover pairwise distinct, so the
lookup fully characterizes the result. -/
theorem claimC2 (rg : ReportGenerator) (s e : Nat) :
    ((rg.generateSpendingAnalysis s e).map Prod.fst).Nodup ∧
    ∀ c : String,
      List.lookup c (rg.generateSpendingAnalysis s e) =
        if ∃ tx ∈ rg.getTransactionsInDateRange s e,
            tx.type = "expense" ∧ tx.category = c
        then some (expenseSum (rg.getTransactionsInDateRange s e) c)
        else none := by
  constructor
  · exact nodup_keys_spendingFold _ [] (by simp)
  · intro c
    rw [ReportGenerator.generateSpendingAnalysis,
      lookup_spendingFold (rg.getTransactionsInDateRange s e) [] c]
    simp

/-- Witness for C2 at the example data, instantiated at a category with
expenses in range and at the income-only category. -/
theorem claimC2_witness :
    (List.lookup "Groceries" (rgEx.generateSpendingAnalysis 1 31) =
      if ∃ tx ∈ rgEx.getTransactionsInDateRange 1 31,
          tx.type = "expense" ∧ tx.category = "Groceries"
      then some (expenseSum (rgEx.getTransactionsInDateRange 1 31) "Groceries")
      else none) ∧
    (List.lookup "Salary" (rgEx.generateSpendingAnalysis 1 31) =
      if ∃ tx ∈ rgEx.getTransactionsInDateRange 1 31,
          tx.type = "expense" ∧ tx.category = "Salary"
      then some (expenseSum (rgEx.getTransactionsInDateRange 1 31) "Salary")
      else none) :=
  ⟨(claimC2 rgEx 1 31).2 "Groceries", (claimC2 rgEx 1 31).2 "Salary"⟩

/-- Claim C4: when every stored transaction's kind is one of the two
data-model values `income`/`expense`, the sum of the spending-analysis
per-category totals equals the income-vs-expense query's `totalExpenses`
for the same range. -/
theorem claimC4 (rg : ReportGenerator) (s e : Nat)
    (h : ∀ tx ∈ rg.transactions, tx.type = "income" ∨ tx.type = "expense") :
    ((rg.generateSpendingAnalysis s e).map Prod.snd).sum =
      (rg.generateIncomeVsExpenseReport s e).totalExpenses := by
  have h2 : ∀ tx ∈ rg.getTransactionsInDateRange s e,
      tx.type = "income" ∨ tx.type = "expense" := by
    intro tx hx
    refine h tx ?_
    rw [ReportGenerator.getTransactionsInDateRange] at hx
    exact List.mem_of_mem_filter hx
  have hfe : (rg.getTransactionsInDateRange s e).filter
        (fun tx => tx.type == "expense") =
      (rg.getTransactionsInDateRange s e).filter
        (fun tx => !(tx.type == "income")) := by
    apply List.filter_congr
    intro tx hx
    rcases h2 tx hx with hi | he
    · simp [hi]
    · simp [he]
  rw [ReportGenerator.generateSpendingAnalysis, sumSnd_spendingFold,
    ReportGenerator.generateIncomeVsExpenseReport, iveFold_totalExpenses, hfe]
  simp

/-- Witness for C4 at the example data. -/
theorem claimC4_witness :
    ((rgEx.generateSpendingAnalysis 1 31).map Prod.snd).sum =
      (rgEx.generateIncomeVsExpenseReport 1 31).totalExpenses :=
  claimC4 rgEx 1 31 (by decide)

/-- Claim C10: the spending-analysis sequence has pairwise-distinct
categories, and under the data-model invariant that every stored amount is
strictly positive, every emitted total is strictly positive. -/
theorem claimC10 (rg : ReportGenerator) (s e : Nat)
    (h : ∀ tx ∈ rg.transactions, 0 < tx.amount) :
    ((rg.generateSpendingAnalysis s e).map Prod.fst).Nodup ∧
    ∀ p ∈ rg.generateSpendingAnalysis s e, 0 < p.2 := by
  constructor
  · exact nodup_keys_spendingFold _ [] (by simp)
  · rw [ReportGenerator.generateSpendingAnalysis]
    refine pos_values_spendingFold _ ?_ [] (by simp)
    intro tx hx
    refine h tx ?_
    rw [ReportGenerator.getTransactionsInDateRange] at hx
    exact List.mem_of_mem_filter hx

/-- Witness for C10 at a one-expense engine: distinct keys and the
positivity of the emitted total. -/
theorem claimC10_witness :
    (((ReportGenerator.mk
        [⟨"3", 30, 7, "expense", "Transport", "Bus pass", "user123"⟩]
        profileEx).generateSpendingAnalysis 1 31).map Prod.fst).Nodup ∧
    (0 : Rat) < (("Transport", (30 : Rat)) : String × Rat).2 :=
  ⟨(claimC10 (ReportGenerator.mk
      [⟨"3", 30, 7, "expense", "Transport", "Bus pass", "user123"⟩]
      profileEx) 1 31 (by decide)).1,
   (claimC10 (ReportGenerator.mk
      [⟨"3", 30, 7, "expense", "Transport", "Bus pass", "user123"⟩]
      profileEx) 1 31 (by decide)).2 ("Transport", (30 : Rat)) (by decide)⟩

/-! ### Lemmas for the savings-growth query -/

theorem dayNet_cons (tx : Transaction) (rest : List Transaction) (d : Nat) :
    dayNet (tx :: rest) d =
      (if tx.date = d then signedAmount tx else 0) + dayNet rest d := by
  unfold dayNet
  by_cases h : tx.date = d
  · have hb : (tx.date == d) = true := by simp [h]
    rw [List.filter_cons, if_pos hb, if_pos h, List.map_cons, List.sum_cons]
  · have hb : (tx.date == d) = false := by simp [h]
    rw [List.filter_cons, if_neg (by simp [hb]), if_neg h, zero_add]

theorem lookup_dayFold (txs : List Transaction) :
    ∀ (m : List (Nat × Rat)) (d : Nat),
      ((List.lookup d (txs.foldl dayStep m)).getD 0) =
        ((List.lookup d m).getD 0) + dayNet txs d := by
  induction txs with
  | nil =>
    intro m d
    simp [dayNet]
  | cons tx rest ih =>
    intro m d
    rw [List.foldl_cons, ih, dayNet_cons]
    by_cases h : tx.date = d
    · rw [if_pos h, dayStep, h, lookup_updateAssoc_self, Option.getD_some]
      ring
    · rw [if_neg h, dayStep,
        lookup_updateAssoc_ne m tx.date d (signedAmount tx) (Ne.symm h),
        zero_add]

theorem mem_keys_dayFold (txs : List Transaction) :
    ∀ (m : List (Nat × Rat)) (x : Nat),
      x ∈ (txs.foldl dayStep m).map Prod.fst →
        x ∈ m.map Prod.fst ∨ ∃ tx ∈ txs, tx.date = x := by
  induction txs with
  | nil =>
    intro m x hx
    exact Or.inl hx
  | cons tx rest ih =>
    intro m x hx
    rw [List.foldl_cons] at hx
    rcases ih (dayStep m tx) x hx with hm | ⟨t2, ht2, hd⟩
    · rw [dayStep] at hm
      rcases (mem_keys_updateAssoc m tx.date x (signedAmount tx)).mp hm with
        hm2 | hm2
      · exact Or.inl hm2
      · exact Or.inr ⟨tx, List.mem_cons_self tx rest, hm2.symm ▸ rfl⟩
    · exact Or.inr ⟨t2, List.mem_cons_of_mem tx ht2, hd⟩

theorem nodup_keys_dayFold (txs : List Transaction) :
    ∀ m : List (Nat × Rat), (m.map Prod.fst).Nodup →
      ((txs.foldl dayStep m).map Prod.fst).Nodup := by
  induction txs with
  | nil => intro m hm; simpa
  | cons tx rest ih =>
    intro m hm
    rw [List.foldl_cons]
    exact ih _ (nodup_keys_updateAssoc m tx.date (signedAmount tx) hm)

theorem sumSnd_dayFold (txs : List Transaction) :
    ∀ m : List (Nat × Rat),
      ((txs.foldl dayStep m).map Prod.snd).sum =
        (m.map Prod.snd).sum + (txs.map signedAmount).sum := by
  induction txs with
  | nil => intro m; simp
  | cons tx rest ih =>
    intro m
    rw [List.foldl_cons, ih, dayStep, sumSnd_updateAssoc, List.map_cons,
      List.sum_cons]
    ring

theorem length_walkFrom (m : List (Nat × Rat)) :
    ∀ (n day : Nat) (bal : Rat), (walkFrom m day bal n).length = n := by
  intro n
  induction n with
  | zero => intro day bal; rfl
  | succ n ih =>
    intro day bal
    rw [walkFrom, List.length_cons, ih]

theorem getElem?_walkFrom (m : List (Nat × Rat)) :
    ∀ (n i day : Nat) (bal : Rat), i < n →
      (walkFrom m day bal n)[i]? =
        some (day + i, bal + sumBuckets m day (i + 1)) := by
  intro n
  induction n with
  | zero =>
    intro i day bal hi
    exact absurd hi (Nat.not_lt_zero i)
  | succ n ih =>
    intro i day bal hi
    rw [walkFrom]
    match i with
    | 0 =>
      rw [List.getElem?_cons_zero]
      have hs : sumBuckets m day 1 = ((List.lookup day m).getD 0) + 0 := rfl
      rw [hs]
      simp
    | i + 1 =>
      rw [List.getElem?_cons_succ,
        ih i (day + 1) (bal + ((List.lookup day m).getD 0))
          (Nat.lt_of_succ_lt_succ hi)]
      have hs : sumBuckets m day (i + 2) =
          ((List.lookup day m).getD 0) + sumBuckets m (day + 1) (i + 1) := rfl
      rw [hs]
      have h1 : day + 1 + i = day + (i + 1) := by omega
      have h2 : (bal + ((List.lookup day m).getD 0)) +
            sumBuckets m (day + 1) (i + 1) =
          bal + (((List.lookup day m).getD 0) + sumBuckets m (day + 1) (i + 1)) := by
        ring
      rw [h1, h2]

theorem sumBuckets_nil : ∀ (day n : Nat), sumBuckets [] day n = 0 := by
  intro day n
  induction n generalizing day with
  | zero => rfl
  | succ n ih =>
    rw [sumBuckets, ih]
    simp

theorem sumBuckets_cons (k : Nat) (v : Rat) (m : List (Nat × Rat))
    (hk : k ∉ m.map Prod.fst) :
    ∀ (day n : Nat),
      sumBuckets ((k, v) :: m) day n =
        (if day ≤ k ∧ k < day + n then v else 0) + sumBuckets m day n := by
  intro day n
  induction n generalizing day with
  | zero =>
    have hno : ¬(day ≤ k ∧ k < day + 0) := by omega
    rw [sumBuckets, sumBuckets, if_neg hno, zero_add]
  | succ n ih =>
    rw [sumBuckets, sumBuckets, ih]
    by_cases h : k = day
    · subst h
      have hb : (k == k) = true := by simp
      have hin : k ≤ k ∧ k < k + (n + 1) := by omega
      have hout : ¬(k + 1 ≤ k ∧ k < k + 1 + n) := by omega
      rw [if_pos hin, if_neg hout, zero_add]
      have h1 : List.lookup k ((k, v) :: m) = some v := by
        simp [List.lookup]
      have h2 : List.lookup k m = none :=
        lookup_eq_none_of_not_mem_keys m k hk
      rw [h1, h2, Option.getD_some]
      simp
    · have hb : (day == k) = false := by simp [Ne.symm h]
      have h1 : List.lookup day ((k, v) :: m) = List.lookup day m := by
        simp [List.lookup, hb]
      have hiff : (day ≤ k ∧ k < day + (n + 1)) ↔
          (day + 1 ≤ k ∧ k < day + 1 + n) := by omega
      rw [h1]
      by_cases h2 : day + 1 ≤ k ∧ k < day + 1 + n
      · rw [if_pos h2, if_pos (hiff.mpr h2)]
        ring
      · rw [if_neg h2, if_neg (fun hh => h2 (hiff.mp hh))]
        ring

theorem sumBuckets_eq_sumSnd (m : List (Nat × Rat)) :
    ∀ (day n : Nat), (m.map Prod.fst).Nodup →
      (∀ k ∈ m.map Prod.fst, day ≤ k ∧ k < day + n) →
      sumBuckets m day n = (m.map Prod.snd).sum := by
  induction m with
  | nil =>
    intro day n _ _
    simp [sumBuckets_nil]
  | cons p m ih =>
    obtain ⟨k, v⟩ := p
    intro day n hnd hrange
    rw [List.map_cons, List.nodup_cons] at hnd
    rw [sumBuckets_cons k v m hnd.1,
      if_pos (hrange k (by rw [List.map_cons]; exact List.mem_cons_self _ _)),
      ih day n hnd.2
        (fun k2 hk2 => hrange k2 (by rw [List.map_cons]; exact List.mem_cons_of_mem _ hk2))]
    rw [List.map_cons, List.sum_cons]

theorem sumBuckets_dailyNetChange (txs : List Transaction) :
    ∀ (n day : Nat), sumBuckets (dailyNetChange txs) day n = runningNet txs day n := by
  intro n
  induction n with
  | zero => intro day; rfl
  | succ n ih =>
    intro day
    rw [sumBuckets, runningNet, ih]
    congr 1
    have h := lookup_dayFold txs [] day
    rw [dailyNetChange]
    simpa using h

/-! ### Claims C1 and C5 -/

/-- Claim C1: savings growth returns the empty sequence when no stored
transaction falls in the range; otherwise it returns exactly
`(endDate - startDate) + 1` entries, one per calendar day from `startDate`
to `endDate` inclusive in order, each entry's balance being the running
sum (starting at 0) of the per-calendar-day net changes of the in-range
transactions, days without transactions carrying the balance over. -/
theorem claimC1 (rg : ReportGenerator) (s e : Nat) :
    (rg.getTransactionsInDateRange s e = [] →
      rg.generateSavingsGrowth s e = []) ∧
    (rg.getTransactionsInDateRange s e ≠ [] →
      (rg.generateSavingsGrowth s e).length = e - s + 1 ∧
      ∀ i, i < e - s + 1 →
        (rg.generateSavingsGrowth s e)[i]? =
          some (s + i,
            runningNet (rg.getTransactionsInDateRange s e) s (i + 1))) := by
  constructor
  · intro h
    rw [ReportGenerator.generateSavingsGrowth]
    simp [h]
  · intro h
    have hse : s ≤ e := by
      obtain ⟨tx, htx⟩ := List.exists_mem_of_ne_nil _ h
      rw [ReportGenerator.getTransactionsInDateRange] at htx
      have h2 := List.of_mem_filter htx
      simp at h2
      omega
    have hgen : rg.generateSavingsGrowth s e =
        walkFrom (dailyNetChange (rg.getTransactionsInDateRange s e)) s 0
          (e + 1 - s) := by
      rw [ReportGenerator.generateSavingsGrowth]
      simp [h]
    have hn : e + 1 - s = e - s + 1 := by omega
    refine ⟨?_, ?_⟩
    · rw [hgen, length_walkFrom, hn]
    · intro i hi
      rw [hgen,
        getElem?_walkFrom _ (e + 1 - s) i s 0 (by omega), zero_add,
        sumBuckets_dailyNetChange]

/-- Witness for C1: the empty-range short-circuit on an empty engine, and
the length and an inner entry of the walk on the example engine over the
range `[5, 7]`. -/
theorem claimC1_witness :
    rgEmpty.generateSavingsGrowth 1 3 = [] ∧
    (rgEx.generateSavingsGrowth 5 7).length = 7 - 5 + 1 ∧
    (rgEx.generateSavingsGrowth 5 7)[1]? =
      some (5 + 1, runningNet (rgEx.getTransactionsInDateRange 5 7) 5 (1 + 1)) :=
  ⟨(claimC1 rgEmpty 1 3).1 (by decide),
   ((claimC1 rgEx 5 7).2 (by decide)).1,
   ((claimC1 rgEx 5 7).2 (by decide)).2 1 (by decide)⟩

/-- Claim C5: whenever the range contains at least one transaction, the
balance of the last savings-growth entry equals `totalIncome -
totalExpenses` of the income-vs-expense query for the same range. -/
theorem claimC5 (rg : ReportGenerator) (s e : Nat)
    (h : rg.getTransactionsInDateRange s e ≠ []) :
    ((rg.generateSavingsGrowth s e).map Prod.snd).getLast? =
      some ((rg.generateIncomeVsExpenseReport s e).totalIncome -
        (rg.generateIncomeVsExpenseReport s e).totalExpenses) := by
  have hse : s ≤ e := by
    obtain ⟨tx, htx⟩ := List.exists_mem_of_ne_nil _ h
    rw [ReportGenerator.getTransactionsInDateRange] at htx
    have h2 := List.of_mem_filter htx
    simp at h2
    omega
  have hgen : rg.generateSavingsGrowth s e =
      walkFrom (dailyNetChange (rg.getTransactionsInDateRange s e)) s 0
        (e + 1 - s) := by
    rw [ReportGenerator.generateSavingsGrowth]
    simp [h]
  have hlen : (rg.generateSavingsGrowth s e).length = e + 1 - s := by
    rw [hgen, length_walkFrom]
  have hlast : (rg.generateSavingsGrowth s e)[(e + 1 - s) - 1]? =
      some (s + ((e + 1 - s) - 1),
        0 + sumBuckets (dailyNetChange (rg.getTransactionsInDateRange s e)) s
          ((e + 1 - s - 1) + 1)) := by
    rw [hgen]
    exact getElem?_walkFrom _ (e + 1 - s) ((e + 1 - s) - 1) s 0 (by omega)
  have hn : (e + 1 - s - 1) + 1 = e + 1 - s := by omega
  rw [hn] at hlast
  have hkeys : ∀ k ∈ (dailyNetChange
      (rg.getTransactionsInDateRange s e)).map Prod.fst,
      s ≤ k ∧ k < s + (e + 1 - s) := by
    intro k hk
    rw [dailyNetChange] at hk
    rcases mem_keys_dayFold _ [] k hk with h0 | ⟨tx, htx, hd⟩
    · simp at h0
    · rw [ReportGenerator.getTransactionsInDateRange] at htx
      have h2 := List.of_mem_filter htx
      simp at h2
      omega
  have hsum : sumBuckets
      (dailyNetChange (rg.getTransactionsInDateRange s e)) s (e + 1 - s) =
      ((rg.getTransactionsInDateRange s e).map signedAmount).sum := by
    have hnodup : ((dailyNetChange
        (rg.getTransactionsInDateRange s e)).map Prod.fst).Nodup := by
      rw [dailyNetChange]
      exact nodup_keys_dayFold _ [] (by simp)
    rw [sumBuckets_eq_sumSnd _ s (e + 1 - s) hnodup hkeys]
    have h2 := sumSnd_dayFold (rg.getTransactionsInDateRange s e) []
    rw [dailyNetChange]
    simpa using h2
  have hive : (rg.generateIncomeVsExpenseReport s e).totalIncome -
      (rg.generateIncomeVsExpenseReport s e).totalExpenses =
      ((rg.getTransactionsInDateRange s e).map signedAmount).sum := by
    rw [ReportGenerator.generateIncomeVsExpenseReport, iveFold_totalIncome,
      iveFold_totalExpenses, sum_signedAmount]
    simp
  rw [List.getLast?_eq_getElem?, List.length_map, hlen, List.getElem?_map,
    hlast, hive]
  simp [hsum]

/-- Witness for C5 at the example engine over the range `[5, 7]`, which
contains two expense transactions. -/
theorem claimC5_witness :
    ((rgEx.generateSavingsGrowth 5 7).map Prod.snd).getLast? =
      some ((rgEx.generateIncomeVsExpenseReport 5 7).totalIncome -
        (rgEx.generateIncomeVsExpenseReport 5 7).totalExpenses) :=
  claimC5 rgEx 5 7 (by decide)
